import Mathlib

set_option maxRecDepth 8000

/-!
A shallow embedding, in Lean 4, of the core of the chatserver-go repository
(server hub, server-side client handler dispatch, wire codec, and the
client-side pending-response machinery), together with theorems checking the
natural-language specification against it.

Conventions of the embedding:
  - a Go string is a `List Char` (`GoStr`);
  - a Go `map[K]V` is an association list `List (GoStr × V)` with at most one
    entry per key, manipulated by `mapLookup` / `mapInsert` / `mapErase`,
    which have exactly the Go map semantics (lookup of a missing key is
    `none`, i.e. the zero value; insert overwrites; delete removes);
  - Go code that dereferences a nil pointer (a runtime panic) is modelled by
    an `Option` result whose `none` case marks the panic;
  - the outcome of a concurrent delivery attempt that is bounded by the
    shared context deadline is abstracted by a boolean oracle `delivered`,
    since only which recipients completed in time decides the computed
    response;
  - machine integers (`int64` of the client id counter) are `Int` with
    explicit two-complement wrapping (`int64wrap`).
-/

namespace ChatServer

/-- Go strings, as lists of characters. -/
abbrev GoStr := List Char

abbrev Username := GoStr
abbrev Password := GoStr
abbrev MsgID := GoStr
abbrev Cmd := GoStr

/-- util/Response.go: `type Response string`. -/
abbrev Response := GoStr

/-- Go map lookup: `v, exists := m[k]` (first matching entry, maps keep keys
unique). -/
def mapLookup {α : Type} (k : GoStr) : List (GoStr × α) → Option α
  | [] => none
  | (k₁, v) :: rest => if k₁ = k then some v else mapLookup k rest

/-- Go map insert: `m[k] = v` (overwrite the entry if the key is present,
append otherwise). -/
def mapInsert {α : Type} (k : GoStr) (v : α) : List (GoStr × α) → List (GoStr × α)
  | [] => [(k, v)]
  | (k₁, v₁) :: rest =>
    if k₁ = k then (k, v) :: rest else (k₁, v₁) :: mapInsert k v rest

/-- Go map delete: `delete(m, k)`. -/
def mapErase {α : Type} (k : GoStr) : List (GoStr × α) → List (GoStr × α)
  | [] => []
  | (k₁, v₁) :: rest =>
    if k₁ = k then mapErase k rest else (k₁, v₁) :: mapErase k rest

/-- util/Response.go: `ResponseOk Response = "Ok"`. -/
def ResponseOk : Response := "Ok".toList

/-- util/Response.go: `ResponseUserAlreadyOnline = Response("User already online")`. -/
def ResponseUserAlreadyOnline : Response := "User already online".toList

/-- util/Response.go: `ResponseUsernameExists = Response("Username already exists")`. -/
def ResponseUsernameExists : Response := "Username already exists".toList

/-- util/Response.go: `ResponseInvalidCredentials = Response("Wrong username or password")`. -/
def ResponseInvalidCredentials : Response := "Wrong username or password".toList

/-- util/Response.go: `ResponseMsgFailedForSome = Response("Message failed to send to some users")`. -/
def ResponseMsgFailedForSome : Response := "Message failed to send to some users".toList

/-- util/Response.go: `ResponseMsgFailedForAll = Response("Message failed to send to any users")`. -/
def ResponseMsgFailedForAll : Response := "Message failed to send to any users".toList

/-- util/util.go: `type UserCredentials struct { Name; Password }`
(the unnamed drafts refine both fields to `Username` / `Password`). -/
structure UserCredentials where
  name : Username
  password : Password
deriving DecidableEq

/-- server/ClientHandler.go `strToAuthAction` admits only `ActionLogin` ("l")
and `ActionRegister` ("r") into an `AuthRequest`; `ActionIOErr` is turned into
an error before `TryToAuthenticate` is ever called, so a request's action is
one of these two. -/
inductive AuthAction where
  | login
  | register
deriving DecidableEq

/-- server/ClientHandler.go: `ClientHandler`. Only the credentials matter to
the hub-level claims; the channels and the connection are I/O plumbing. -/
structure Handler where
  creds : UserCredentials
deriving DecidableEq

instance : Inhabited Handler := ⟨⟨⟨[], []⟩⟩⟩

instance : Nonempty (Username × Handler) := ⟨([], ⟨⟨[], []⟩⟩)⟩

/-- server/ClientHandler.go: `AuthRequest` (the `conn` field is I/O plumbing). -/
structure AuthRequest where
  authType : AuthAction
  creds : UserCredentials
deriving DecidableEq

/-- server/Hub.go: the `Hub` struct. `activeUsers : map[Username]*ClientHandler`
is the session set, `userDB : map[Username]Password` is the user store. The
two locks guard the two maps; each locked section of the source becomes one
atomic operation of this model. -/
structure Hub where
  activeUsers : List (Username × Handler)
  userDB : List (Username × Password)
deriving DecidableEq

/-- server/Hub.go `testAuth` (lines 51-75), the whole body of which runs under
both write locks:

    switch request.authType {
    case ActionLogin:
      pass, exists := hub.userDB[request.creds.Name]
      if !exists || pass != request.creds.Password { return ResponseInvalidCredentials }
      else if _, isActive := hub.activeUsers[request.creds.Name]; isActive { return ResponseUserAlreadyOnline }
      return ResponseOk
    case ActionRegister:
      if _, exists := hub.userDB[request.creds.Name]; exists { return ResponseUsernameExists }
      return ResponseOk
    }
-/
def testAuth (hub : Hub) (request : AuthRequest) : Response :=
  match request.authType with
  | .login =>
    match mapLookup request.creds.name hub.userDB with
    | none => ResponseInvalidCredentials
    | some pass =>
      if pass ≠ request.creds.password then ResponseInvalidCredentials
      else
        match mapLookup request.creds.name hub.activeUsers with
        | some _ => ResponseUserAlreadyOnline
        | none => ResponseOk
  | .register =>
    match mapLookup request.creds.name hub.userDB with
    | some _ => ResponseUsernameExists
    | none => ResponseOk

/-- server/ClientHandler.go `newClientHandler`: builds the fresh handler for
the request's credentials (plus fresh channels, not modelled). -/
def newClientHandler (request : AuthRequest) : Handler :=
  ⟨request.creds⟩

/-- server/Hub.go `logClientIn` (lines 76-88), the whole body under both write
locks:

    client := hub.newClientHandler(request)
    hub.userDB[client.Creds.Name] = client.Creds.Password
    hub.activeUsers[client.Creds.Name] = client
    return client
-/
def logClientIn (hub : Hub) (request : AuthRequest) : Handler × Hub :=
  let client := newClientHandler request
  (client,
    { userDB := mapInsert client.creds.name client.creds.password hub.userDB
      activeUsers := mapInsert client.creds.name client hub.activeUsers })

/-- The visible outcome of `Hub.TryToAuthenticate`: the response, the handler
pointer (`nil` = `none`), and the hub state afterwards. -/
structure AuthResult where
  response : Response
  handler : Option Handler
  hub : Hub
deriving DecidableEq

/-- server/Hub.go `TryToAuthenticate` (lines 44-50):

    response := hub.testAuth(request)
    if response != ResponseOk { return response, nil }
    return response, hub.logClientIn(request)

Note that the locks are released when `testAuth` returns and reacquired by
`logClientIn`: the two phases are separately atomic, not jointly. -/
def TryToAuthenticate (hub : Hub) (request : AuthRequest) : AuthResult :=
  let response := testAuth hub request
  if response ≠ ResponseOk then ⟨response, none, hub⟩
  else
    let logged := logClientIn hub request
    ⟨response, some logged.1, logged.2⟩

/-- server/ClientHandler.go `Close` (lines 66-69) as invoked on the map lookup
result by `Logout`. A Go map lookup of an absent key yields the nil pointer,
and `Close` on a nil `*ClientHandler` dereferences nil (`handler.SendMsg`):
a runtime panic, modelled as `none`. On a real handler it closes the outbound
channel and the connection (errors are only logged by `ClosePrintErr`). -/
def closeHandlerRef : Option Handler → Option Unit
  | none => none
  | some _ => some ()

/-- server/Hub.go `Logout` (lines 89-96), under the activeUsers write lock:

    ClosePrintErr(hub.activeUsers[name])
    delete(hub.activeUsers, name)

`none` = the call panics (nil handler dereference inside `Close`). -/
def Logout (hub : Hub) (name : Username) : Option Hub :=
  match closeHandlerRef (mapLookup name hub.activeUsers) with
  | none => none
  | some _ => some { hub with activeUsers := mapErase name hub.activeUsers }

/-! ### Wire codec (util/Response.go, util/util.go, server/ClientHandler.go)

The Go marker constants `ServerResponsePrefix = "r"`, `MsgPrefix = "m"` and
`cmdPrefix = "/"` are one-character strings; they are named `...Mark` here. -/

/-- util/Response.go: `const ServerResponsePrefix = "r"`. -/
def serverResponseMark : GoStr := ['r']

/-- util/util.go: `const MsgPrefix = "m"`. -/
def msgMark : GoStr := ['m']

/-- server/ClientHandler.go: `const cmdPrefix = "/"`. -/
def cmdMark : GoStr := ['/']

/-- util/util.go: `const IdSeparator = ";"`, a one-character string. -/
def idSepChar : Char := ';'

/-- The separator as a Go string. -/
def idSeparator : GoStr := [idSepChar]

/-- util/util.go: `LogoutCmd Cmd = "quit"`. -/
def LogoutCmdStr : Cmd := "quit".toList

/-- Go `strings.HasPrefix(s, pre)`. -/
def goStartsWith (s pre : GoStr) : Bool :=
  pre.isPrefixOf s

/-- Go `strings.Split(s, sep)` for the one-character separator `";"` used by
the codec: the list of maximal `sep`-free chunks, always non-empty. -/
def splitOnChar (sep : Char) : GoStr → List GoStr
  | [] => [[]]
  | c :: rest =>
    let parts := splitOnChar sep rest
    if c = sep then [] :: parts
    else
      match parts with
      | [] => [[c]]
      | p :: ps => (c :: p) :: ps

/-- server/ClientHandler.go `isCommand`: `strings.HasPrefix(s, cmdPrefix)`. -/
def isCommand (s : GoStr) : Bool :=
  goStartsWith s cmdMark

/-- util/util.go `ToCmd`: `Cmd(s[1:])`. -/
def ToCmd (s : GoStr) : Cmd :=
  s.drop 1

/-- server/ClientHandler.go `parseInputMsg` (lines 151-163):

    if !strings.HasPrefix(input, MsgPrefix) { return "", "", false }
    input = input[len(MsgPrefix):]
    parts := strings.Split(input, IdSeparator)
    if len(parts) < 2 { return "", "", false }
    id = MsgID(parts[0])
    msg = input[len(id)+len(IdSeparator):]
    return id, msg, true
-/
def parseInputMsg (input : GoStr) : Option (MsgID × GoStr) :=
  if goStartsWith input msgMark then
    let rest := input.drop msgMark.length
    match splitOnChar idSepChar rest with
    | p₀ :: _ :: _ => some (p₀, rest.drop (p₀.length + idSeparator.length))
    | _ => none
  else none

/-- util/Response.go: `ServerResponse` (fields `Response`, `Id`). -/
structure ServerResponse where
  response : Response
  id : MsgID
deriving DecidableEq

/-- util/Response.go `ParseServerResponse` (lines 29-41): identical shape to
`parseInputMsg`, with the `"r"` marker, returning a `ServerResponse`. -/
def ParseServerResponse (s : GoStr) : Option ServerResponse :=
  if goStartsWith s serverResponseMark then
    let rest := s.drop serverResponseMark.length
    match splitOnChar idSepChar rest with
    | p₀ :: _ :: _ => some ⟨rest.drop (p₀.length + idSeparator.length), p₀⟩
    | _ => none
  else none

/-- The line content written by server/ClientHandler.go `forwardResponseToUser`
(lines 110-114) before the terminating newline:
`ServerResponsePrefix + string(id) + IdSeparator + string(r)`. -/
def responseFrameLine (id : MsgID) (r : Response) : GoStr :=
  serverResponseMark ++ id ++ idSeparator ++ r

/-- The line content written by client/Client.go `sendMsgWithTimeout` before
the terminating newline: `MsgPrefix + string(id) + IdSeparator + msg`. -/
def taggedMsgLine (id : MsgID) (msg : GoStr) : GoStr :=
  msgMark ++ id ++ idSeparator ++ msg

/-- The full byte string `forwardResponseToUser` writes (with the newline). -/
def responseLineOut (id : MsgID) (r : Response) : GoStr :=
  responseFrameLine id r ++ ['\n']

/-- The full byte string server/ClientHandler.go `forwardCmdToUser` writes:
`cmdPrefix + string(cmd) + "\n"`. -/
def forwardCmdLine (cmd : Cmd) : GoStr :=
  cmdMark ++ cmd ++ ['\n']

/-- The full byte string server/ClientHandler.go `forwardMsgToUser` writes:
`MsgPrefix + msg.sender.Name + ": " + msg.content + "\n"`. -/
def msgDeliveryLine (sender : Username) (content : GoStr) : GoStr :=
  msgMark ++ sender ++ [':', ' '] ++ content ++ ['\n']

/-! ### Broadcast (server/Hub.go lines 122-174) -/

/-- server/Hub.go `BroadcastMessageWithTimeout` (lines 122-158).

    totalToSendTo := len(hub.activeUsers) - 1          // Go int: may be -1
    if totalToSendTo == 0 { return ResponseOk }
    for _, client := range hub.activeUsers {
      if client.Creds.Name == sender { continue }
      go func(handler) { errs <- sendMessageToClient(handler, ..., ctx) }(client)
    }
    succeeded := 0
    for i := 0; i < totalToSendTo; i++ { if err := <-errs; err == nil { succeeded++ } }
    if succeeded == 0 { return ResponseMsgFailedForAll }
    else if succeeded < totalToSendTo { return ResponseMsgFailedForSome }
    else { return ResponseOk }

`sendMessageToClient` returns nil exactly when both channel operations (the
inbox send and the wait for the ack) finish before the shared
`MsgSendTimeout` context deadline; the oracle `delivered` records, per
recipient handler, whether that happened. When the sender is one of the
sessions (the situation of every caller), the spawned goroutines number
exactly `totalToSendTo`, so `succeeded` counts the delivered recipients.

When the session map is empty, `totalToSendTo` is the Go int `-1`: the early
return does not fire and the next statement,
`errs := make(chan error, totalToSendTo)`, asks for a channel with a negative
buffer size — a runtime panic ("makechan: size out of range"), modelled as
`none`: the function returns no response at all in that state. -/
def BroadcastMessageWithTimeout (hub : Hub) (sender : Username)
    (delivered : Handler → Bool) : Option Response :=
  let totalToSendTo : Int := (hub.activeUsers.length : Int) - 1
  if totalToSendTo = 0 then some ResponseOk
  else if totalToSendTo < 0 then none
  else
    let recipients := hub.activeUsers.filter (fun p => p.2.creds.name ≠ sender)
    let succeeded : Int := ((recipients.filter (fun p => delivered p.2)).length : Int)
    if succeeded = 0 then some ResponseMsgFailedForAll
    else if succeeded < totalToSendTo then some ResponseMsgFailedForSome
    else some ResponseOk

/-- Key-uniqueness and key-coherence of the session map: Go maps have unique
keys, and every insertion (`logClientIn`) stores a handler under its own
credentials name, so each entry's key is its handler's name. -/
def HubWF (hub : Hub) : Prop :=
  (hub.activeUsers.map Prod.fst).Nodup ∧
    ∀ p ∈ hub.activeUsers, p.2.creds.name = p.1

/-! ### Server-side dispatch (server/ClientHandler.go lines 165-221) -/

/-- The sender name the server attaches to its own "Invalid command" chat
message (`&UserCredentials{Name: "server"}`). -/
def serverSenderName : Username := "server".toList

/-- The content of that chat message. -/
def invalidCommandText : GoStr := "Invalid command".toList

/-- What a call to `dispatchUserInput` does: `errOddOutput` for unparsable
input; `ok writes hub` when every write succeeded, with the ordered list of
byte strings that reached the connection and the hub state afterwards;
`writeErr writes hub` when a `conn.Write` failed and its error was returned,
with the byte strings that had reached the connection before it; `panicked`
for a runtime panic (a `Logout` of an absent name, or the broadcast's
negative channel size). -/
inductive DispatchResult where
  | errOddOutput
  | ok (writes : List GoStr) (hub : Hub)
  | writeErr (writes : List GoStr) (hub : Hub)
  | panicked
deriving DecidableEq

/-- server/ClientHandler.go `runUserCommand` (lines 194-203):

    switch cmd {
    case LogoutCmd:
      handler.hub.Logout(...)            // removes the session entry
      return handler.forwardCmdToUser(LogoutCmd)
    default:
      msg := NewChatMessage(&UserCredentials{Name: "server"}, "Invalid command")
      return handler.forwardMsgToUser(msg)
    }

(The draft passes the handler's credentials where `Hub.Logout` takes the
username; the session key is the handler's credentials name.)
`Logout` runs `ClosePrintErr` on the handler registered under the name,
whose `Close` closes that handler's connection before deleting the entry
(see `Logout` above); `forwardCmdToUser` then writes the `/quit` frame to
`handler.conn`. When the registered handler is this handler — the case in
every real call, `logClientIn` having registered the handler itself — that
connection has just been closed, so the write deterministically returns an
error and the frame never reaches the stream.

Result: `(lines that reached the stream, hub afterwards, a write failed)`;
`none` = the `Logout` call panicked (absent name, see C4). The
invalid-command message goes to the still-open connection and succeeds. -/
def runUserCommand (hub : Hub) (self : Handler) (cmd : Cmd) :
    Option (List GoStr × Hub × Bool) :=
  if cmd = LogoutCmdStr then
    match mapLookup self.creds.name hub.activeUsers,
        Logout hub self.creds.name with
    | some registered, some hub₁ =>
      if registered = self then some ([], hub₁, true)
      else some ([forwardCmdLine LogoutCmdStr], hub₁, false)
    | _, _ => none
  else
    some ([msgDeliveryLine serverSenderName invalidCommandText], hub, false)

/-- server/ClientHandler.go `dispatchUserInput` (lines 174-192):

    id, msg, ok := parseInputMsg(input)
    if !ok { return ErrOddOutput }
    if isCommand(msg) {
      err := handler.forwardResponseToUser(id, ResponseOk)   // first write
      if err != nil { return err }
      return handler.runUserCommand(ToCmd(msg))              // then act
    } else {
      response := handler.hub.BroadcastMessageWithTimeout(msg, ...)
      return handler.forwardResponseToUser(id, response)
    }

The handler's connection is open when `dispatchUserInput` runs, so the
response-frame writes succeed; a failed write inside `runUserCommand` (the
`/quit` frame after `Logout` closed the connection) surfaces as `writeErr`,
and a panic inside `runUserCommand` or the broadcast as `panicked`. -/
def dispatchUserInput (hub : Hub) (self : Handler) (input : GoStr)
    (delivered : Handler → Bool) : DispatchResult :=
  match parseInputMsg input with
  | none => .errOddOutput
  | some (id, msg) =>
    if isCommand msg then
      match runUserCommand hub self (ToCmd msg) with
      | none => .panicked
      | some (writes, hub₁, true) =>
        .writeErr (responseLineOut id ResponseOk :: writes) hub₁
      | some (writes, hub₁, false) =>
        .ok (responseLineOut id ResponseOk :: writes) hub₁
    else
      match BroadcastMessageWithTimeout hub self.creds.name delivered with
      | none => .panicked
      | some r => .ok [responseLineOut id r] hub

/-! ### Client side (client/Client.go) -/

/-- The Go error values the modelled client paths can produce. -/
inductive GoErr where
  | errClientHasQuit
  | errOddOutput
  | errEmptyUsernameOrPassword
  | errResponseForUnexpectedId
  | ioErr
deriving DecidableEq

/-- util/util.go: `ReadOutput { Val string; Err error }`, one line read from
the user. -/
structure ReadOutput where
  val : GoStr
  err : Option GoErr
deriving DecidableEq

/-- client/Client.go `promptForUsernameAndPassword` (lines 403-424), given the
two lines read at the prompts:

    username := <-userInput
    if username.Err != nil { return nil, username.Err }
    if username.Val == "" { return nil, ErrEmptyUsernameOrPassword }
    password := <-userInput
    if password.Err != nil { return nil, password.Err }
    if password.Val == "" { return nil, ErrEmptyUsernameOrPassword }
    return &UserCredentials{...}, nil
-/
def promptForUsernameAndPassword (nameIn passIn : ReadOutput) :
    Option UserCredentials × Option GoErr :=
  match nameIn.err with
  | some e => (none, some e)
  | none =>
    if nameIn.val = [] then (none, some .errEmptyUsernameOrPassword)
    else
      match passIn.err with
      | some e => (none, some e)
      | none =>
        if passIn.val = [] then (none, some .errEmptyUsernameOrPassword)
        else (some ⟨nameIn.val, passIn.val⟩, none)

/-- client/Client.go `promptForAuthTypeAndUser` (lines 360-368), after
`ChooseLoginOrRegister` has yielded `action`:

    me, err := promptForUsernameAndPassword(userInput, out)
    return me, action, nil

The error from the username/password prompt is discarded: the returned error
is the literal `nil`, whatever `err` holds. -/
def promptForAuthTypeAndUser (action : AuthAction) (nameIn passIn : ReadOutput) :
    Option UserCredentials × AuthAction × Option GoErr :=
  let prompted := promptForUsernameAndPassword nameIn passIn
  (prompted.1, action, none)

/-- The first line `client.authenticate` writes is
`string(action) + "\n" + ...`; the action serializes to "l" or "r". -/
def serializeAuthAction : AuthAction → GoStr
  | .login => ['l']
  | .register => ['r']

/-- What one pass of client/Client.go `authenticateWithRetry` (lines 189-204)
does with the prompt outcome:

    creds, action, err := promptForAuthTypeAndUser(...)
    if err != nil { ... return nil, err }
    me, err := client.authenticateWithServer(creds, action)
    ...

`authenticateWithServer` calls `client.authenticate(action, creds)`, whose
first statement evaluates `creds.Name` while building the three
newline-separated lines for the server; with `creds == nil` that is a nil
pointer dereference, i.e. a runtime panic. -/
inductive AuthRetryStep where
  | returned (e : GoErr)
  | panickedOnNilCreds
  | wroteAuthLines (lines : List GoStr)
deriving DecidableEq

/-- One pass of `authenticateWithRetry` over the modelled prompt. -/
def authenticateWithRetryStep (action : AuthAction) (nameIn passIn : ReadOutput) :
    AuthRetryStep :=
  match promptForAuthTypeAndUser action nameIn passIn with
  | (_, _, some e) => .returned e
  | (none, _, none) => .panickedOnNilCreds
  | (some creds, act, none) =>
    .wroteAuthLines [serializeAuthAction act, creds.name, creds.password]

/-! #### Pending-response table (client/Client.go lines 283-327)

`pendingAcks : map[MsgID]chan<- Response` maps an id to its buffered ack
channel (capacity 1); an entry's value here is the channel's buffer content. -/

abbrev AckChan := Option Response

abbrev PendingAcks := List (MsgID × AckChan)

/-- client/Client.go `insertExpectedResponseId` (lines 302-310):
`ack := make(chan Response, 1); client.pendingAcks[id] = ack`. -/
def insertExpectedResponseId (p : PendingAcks) (id : MsgID) : PendingAcks :=
  mapInsert id none p

/-- client/Client.go `removeExpectedResponseId` (lines 311-315):
`delete(client.pendingAcks, id)`. Defined in the source — and called from
nowhere in it. -/
def removeExpectedResponseId (p : PendingAcks) (id : MsgID) : PendingAcks :=
  mapErase id p

/-- client/Client.go `handleIncomingResponse` (lines 175-185):

    ack, exists := client.pendingAcks[serverResponse.Id]
    if !exists { ...; client.errs <- ErrResponseForUnexpectedId; return }
    ack <- serverResponse.Response

The entry is looked up and its channel filled; nothing is deleted. -/
def handleIncomingResponse (p : PendingAcks) (sr : ServerResponse) :
    PendingAcks × Option GoErr :=
  match mapLookup sr.id p with
  | none => (p, some .errResponseForUnexpectedId)
  | some _ => (mapInsert sr.id (some sr.response) p, none)

/-- client/Client.go `expectResponseFromChanWithTimeout` (lines 317-327):

    select {
    case <-time.After(MsgAckTimeout): log.Printf("Msg %s wasn't acked", id)
    case response := <-ack: if response != expected { fmt.Printf(...) }
    }

`timedOut` says which select arm fired. The receive drains the channel
buffer; neither arm touches the pending map (in particular neither calls
`removeExpectedResponseId`). -/
def expectResponseFromChanWithTimeout (p : PendingAcks) (id : MsgID)
    (timedOut : Bool) : PendingAcks :=
  if timedOut then p
  else
    match mapLookup id p with
    | some (some _) => mapInsert id none p
    | _ => p

/-! #### Unique message ids (client/Client.go lines 295-300) -/

/-- Two-complement wrapping of an `Int` into the `int64` range. -/
def int64wrap (v : Int) : Int :=
  (v + 2 ^ 63) % 2 ^ 64 - 2 ^ 63

/-- Go's `atomic.AddInt64(&x, d)`: `int64` addition wraps silently. -/
def addInt64 (x d : Int) : Int :=
  int64wrap (x + d)

/-- `var globalID int64 = 0` after `n` calls of
`atomic.AddInt64(&globalID, 1)`. -/
def globalIDAfter : Nat → Int
  | 0 => 0
  | n + 1 => addInt64 (globalIDAfter n) 1

/-- The digit loop of `strconv.FormatInt(v, 10)` on a natural number:
most significant digit first, built from repeated division by 10 (the `fuel`
argument only bounds the recursion; it is kept at least the value). -/
def natDecAux : Nat → Nat → GoStr
  | 0, _ => []
  | _ + 1, 0 => []
  | fuel + 1, n + 1 =>
    natDecAux fuel ((n + 1) / 10) ++ [Nat.digitChar ((n + 1) % 10)]

/-- Decimal rendering of a natural number (`"0"` for zero). -/
def natDecChars (n : Nat) : GoStr :=
  if n = 0 then ['0'] else natDecAux n n

/-- `strconv.FormatInt(v, 10)`: a minus sign followed by the decimal digits
of the absolute value for negative `v`, the decimal digits otherwise. -/
def goFormatInt (v : Int) : GoStr :=
  if v < 0 then '-' :: natDecChars v.natAbs else natDecChars v.toNat

/-- client/Client.go `getUniqueID` (lines 297-300), at its `n`-th call
(1-based) within one client process:

    new_ := atomic.AddInt64(&globalID, 1)
    return MsgID(strconv.FormatInt(new_, 10))
-/
def getUniqueIDAt (n : Nat) : MsgID :=
  goFormatInt (globalIDAfter n)

/-- The value a most-significant-first decimal digit string denotes; used to
show the rendering is injective. -/
def decValue (l : GoStr) : Nat :=
  l.foldl (fun acc c => acc * 10 + (c.toNat - 48)) 0

/-! ### Interleavings of two concurrent TryToAuthenticate calls

server/Hub.go takes and releases both write locks inside `testAuth`, and
takes them again inside `logClientIn` (the `defer ...Unlock()` calls run when
`testAuth` returns, before `TryToAuthenticate` calls `logClientIn`). Each of
the two locked sections is therefore one atomic step, and steps of different
calls may interleave between them. -/

/-- Where one in-flight `TryToAuthenticate` call stands: not yet run its
`testAuth` section, holding `testAuth`'s result, or returned. -/
inductive AuthPhase where
  | start
  | tested (response : Response)
  | finished (response : Response) (handler : Option Handler)
deriving DecidableEq

/-- One in-flight call: its request and its phase. -/
structure AuthThread where
  req : AuthRequest
  phase : AuthPhase
deriving DecidableEq

/-- The hub together with two concurrent `TryToAuthenticate` calls. -/
structure ConcState where
  hub : Hub
  t₁ : AuthThread
  t₂ : AuthThread
deriving DecidableEq

/-- The interleaving semantics: each constructor is one locked section of one
call, exactly as the source brackets them. A call whose `testAuth` returned
non-Ok finishes without touching the hub; a call whose `testAuth` returned Ok
runs `logClientIn` as its second atomic step. -/
inductive AuthStep : ConcState → ConcState → Prop where
  | test₁ (s : ConcState) (h : s.t₁.phase = .start) :
      AuthStep s ⟨s.hub, ⟨s.t₁.req, .tested (testAuth s.hub s.t₁.req)⟩, s.t₂⟩
  | test₂ (s : ConcState) (h : s.t₂.phase = .start) :
      AuthStep s ⟨s.hub, s.t₁, ⟨s.t₂.req, .tested (testAuth s.hub s.t₂.req)⟩⟩
  | insertOk₁ (s : ConcState) (h : s.t₁.phase = .tested ResponseOk) :
      AuthStep s ⟨(logClientIn s.hub s.t₁.req).2,
        ⟨s.t₁.req, .finished ResponseOk (some (logClientIn s.hub s.t₁.req).1)⟩, s.t₂⟩
  | insertOk₂ (s : ConcState) (h : s.t₂.phase = .tested ResponseOk) :
      AuthStep s ⟨(logClientIn s.hub s.t₂.req).2, s.t₁,
        ⟨s.t₂.req, .finished ResponseOk (some (logClientIn s.hub s.t₂.req).1)⟩⟩
  | fail₁ (s : ConcState) (r : Response) (h : s.t₁.phase = .tested r)
      (hr : r ≠ ResponseOk) :
      AuthStep s ⟨s.hub, ⟨s.t₁.req, .finished r none⟩, s.t₂⟩
  | fail₂ (s : ConcState) (r : Response) (h : s.t₂.phase = .tested r)
      (hr : r ≠ ResponseOk) :
      AuthStep s ⟨s.hub, s.t₁, ⟨s.t₂.req, .finished r none⟩⟩

/-- Reachability under the interleaving semantics. -/
def AuthReachable : ConcState → ConcState → Prop :=
  Relation.ReflTransGen AuthStep

/-! ### Concrete data for witnesses -/

def aliceName : Username := "alice".toList

def bobName : Username := "bob".toList

def pwStr : Password := "pw".toList

def aliceCreds : UserCredentials := ⟨aliceName, pwStr⟩

def aliceHandler : Handler := ⟨aliceCreds⟩

def bobHandler : Handler := ⟨⟨bobName, pwStr⟩⟩

/-- A hub with alice registered and logged in. -/
def hubAliceActive : Hub :=
  ⟨[(aliceName, aliceHandler)], [(aliceName, pwStr)]⟩

/-- A hub with alice and bob registered and logged in. -/
def hubAliceBobActive : Hub :=
  ⟨[(aliceName, aliceHandler), (bobName, bobHandler)],
    [(aliceName, pwStr), (bobName, pwStr)]⟩

/-- A hub with alice registered but nobody logged in. -/
def hubAliceRegistered : Hub :=
  ⟨[], [(aliceName, pwStr)]⟩

/-! ## Theorems -/

/-! ### Association-list map facts -/

theorem mapLookup_mapInsert_self {α : Type} (k : GoStr) (v : α)
    (m : List (GoStr × α)) : mapLookup k (mapInsert k v m) = some v := by
  induction m with
  | nil => simp [mapInsert, mapLookup]
  | cons p rest ih =>
    obtain ⟨k₁, v₁⟩ := p
    by_cases h : k₁ = k
    · simp [mapInsert, h, mapLookup]
    · simp [mapInsert, h, mapLookup, ih]

theorem mapLookup_mapErase_self {α : Type} (k : GoStr)
    (m : List (GoStr × α)) : mapLookup k (mapErase k m) = none := by
  induction m with
  | nil => simp [mapErase, mapLookup]
  | cons p rest ih =>
    obtain ⟨k₁, v₁⟩ := p
    by_cases h : k₁ = k
    · simp [mapErase, h, mapLookup, ih]
    · simp [mapErase, h, mapLookup, ih]

/-! ### C1 — TryToAuthenticate case analysis -/

/-- C1: for every authentication request processed by `Hub.TryToAuthenticate`:
a Login whose name is absent from the user store or whose stored password
differs from the given one yields `InvalidCredentials` and changes nothing; a
Login with matching credentials whose name is already in the session set
yields `UserAlreadyOnline` (and changes nothing); a Register whose name is
already in the user store yields `UsernameExists` and changes nothing;
otherwise the result is `Ok`, afterwards the name maps to the given password
in the user store, and the fresh handler for the name is in the session set. -/
theorem tryToAuthenticate_cases (hub : Hub) (req : AuthRequest) :
    (req.authType = .login ∧
        mapLookup req.creds.name hub.userDB ≠ some req.creds.password →
      TryToAuthenticate hub req = ⟨ResponseInvalidCredentials, none, hub⟩) ∧
    (req.authType = .login ∧
        mapLookup req.creds.name hub.userDB = some req.creds.password ∧
        (∃ h, mapLookup req.creds.name hub.activeUsers = some h) →
      TryToAuthenticate hub req = ⟨ResponseUserAlreadyOnline, none, hub⟩) ∧
    (req.authType = .register ∧
        (∃ p, mapLookup req.creds.name hub.userDB = some p) →
      TryToAuthenticate hub req = ⟨ResponseUsernameExists, none, hub⟩) ∧
    ((req.authType = .login ∧
        mapLookup req.creds.name hub.userDB = some req.creds.password ∧
        mapLookup req.creds.name hub.activeUsers = none) ∨
     (req.authType = .register ∧
        mapLookup req.creds.name hub.userDB = none) →
      (TryToAuthenticate hub req).response = ResponseOk ∧
      mapLookup req.creds.name (TryToAuthenticate hub req).hub.userDB =
        some req.creds.password ∧
      (TryToAuthenticate hub req).handler = some ⟨req.creds⟩ ∧
      mapLookup req.creds.name (TryToAuthenticate hub req).hub.activeUsers =
        some ⟨req.creds⟩) := by
  refine ⟨?_, ?_, ?_, ?_⟩
  · rintro ⟨ht, hd⟩
    have hta : testAuth hub req = ResponseInvalidCredentials := by
      cases hdb : mapLookup req.creds.name hub.userDB with
      | none => simp [testAuth, ht, hdb]
      | some pass =>
        have hne : pass ≠ req.creds.password := by
          intro h; exact hd (by rw [hdb, h])
        simp [testAuth, ht, hdb, hne]
    simp only [TryToAuthenticate, hta]
    rw [if_pos (show ResponseInvalidCredentials ≠ ResponseOk by decide)]
  · rintro ⟨ht, hdb, h, hact⟩
    have hta : testAuth hub req = ResponseUserAlreadyOnline := by
      simp [testAuth, ht, hdb, hact]
    simp only [TryToAuthenticate, hta]
    rw [if_pos (show ResponseUserAlreadyOnline ≠ ResponseOk by decide)]
  · rintro ⟨ht, p, hdb⟩
    have hta : testAuth hub req = ResponseUsernameExists := by
      simp [testAuth, ht, hdb]
    simp only [TryToAuthenticate, hta]
    rw [if_pos (show ResponseUsernameExists ≠ ResponseOk by decide)]
  · intro hcase
    have hta : testAuth hub req = ResponseOk := by
      rcases hcase with ⟨ht, hdb, hact⟩ | ⟨ht, hdb⟩
      · simp [testAuth, ht, hdb, hact]
      · simp [testAuth, ht, hdb]
    have hres : TryToAuthenticate hub req =
        ⟨ResponseOk, some (logClientIn hub req).1, (logClientIn hub req).2⟩ := by
      simp only [TryToAuthenticate, hta]
      rw [if_neg (show ¬ResponseOk ≠ ResponseOk by simp)]
    rw [hres]
    refine ⟨rfl, ?_, rfl, ?_⟩
    · simpa [logClientIn, newClientHandler] using
        mapLookup_mapInsert_self req.creds.name req.creds.password hub.userDB
    · simpa [logClientIn, newClientHandler] using
        mapLookup_mapInsert_self req.creds.name (⟨req.creds⟩ : Handler)
          hub.activeUsers

/-- C1 witness: a successful login on a hub where alice is registered and
offline, evaluated concretely. -/
theorem tryToAuthenticate_cases_witness :
    (TryToAuthenticate hubAliceRegistered ⟨.login, aliceCreds⟩).response =
      ResponseOk ∧
    mapLookup aliceName
        (TryToAuthenticate hubAliceRegistered ⟨.login, aliceCreds⟩).hub.activeUsers =
      some ⟨aliceCreds⟩ := by
  have h :=
    (tryToAuthenticate_cases hubAliceRegistered ⟨.login, aliceCreds⟩).2.2.2
      (Or.inl ⟨rfl, by decide, by decide⟩)
  exact ⟨h.1, h.2.2.2⟩

/-! ### C4 — Logout is not idempotent -/

/-- C4: the claim "Logout(name) is a no-op on an absent name, so calling it
twice equals calling it once" fails on the code. `Logout` runs
`ClosePrintErr(hub.activeUsers[name])`; for an absent name the map lookup
yields the nil `*ClientHandler`, and `Close` dereferences it
(`close(handler.SendMsg)`): a runtime panic, not a no-op. Concretely, logging
alice out of `hubAliceActive` removes her session, and a second `Logout` of
the now-absent name panics (`= none`) instead of leaving the hub unchanged. -/
theorem logout_second_call_panics :
    Logout hubAliceActive aliceName = some hubAliceRegistered ∧
    Logout hubAliceRegistered aliceName = none := by decide

/-! ### C5 — the pending entry outlives response and timeout -/

/-- C5: the claim "after the waiter receives the response or MsgAckTimeout
elapses, the id no longer maps to a channel in the pending map" fails on the
code: `removeExpectedResponseId` exists but no code path calls it. After
`sendMsgExpectAsyncResponse` inserts id "1", `handleIncomingResponse`
delivers the response into the entry's channel, and the waiter
`expectResponseFromChanWithTimeout` consumes it (`timedOut = false`), the
entry is still present (`some none` = an entry holding a drained channel);
likewise after a timeout (`timedOut = true`). The unused helper would have
removed it. -/
theorem pendingAcks_entry_never_removed :
    mapLookup ['1']
        (expectResponseFromChanWithTimeout
          (handleIncomingResponse (insertExpectedResponseId [] ['1'])
              ⟨ResponseOk, ['1']⟩).1
          ['1'] false) = some none ∧
    (handleIncomingResponse (insertExpectedResponseId [] ['1'])
        ⟨ResponseOk, ['1']⟩).2 = none ∧
    mapLookup ['1']
        (expectResponseFromChanWithTimeout (insertExpectedResponseId [] ['1'])
          ['1'] true) = some none ∧
    removeExpectedResponseId (insertExpectedResponseId [] ['1']) ['1'] = [] := by
  decide

/-! ### C8 — empty credentials are not rejected with a re-prompt -/

/-- C8: the claim "an empty username or password is rejected with a re-prompt
and no authentication lines are written" fails on the code.
`promptForUsernameAndPassword` does return `ErrEmptyUsernameOrPassword`, but
`promptForAuthTypeAndUser` returns the literal `nil` error
(`return me, action, nil`), discarding it; `authenticateWithRetry` therefore
proceeds to `authenticateWithServer` with the nil credentials pointer, and
`client.authenticate` dereferences it (`creds.Name`) — a runtime panic, not a
re-prompt. Both the empty-username and the empty-password inputs hit it. -/
theorem empty_credentials_panic_instead_of_reprompt (action : AuthAction)
    (passIn : ReadOutput) :
    (promptForUsernameAndPassword ⟨[], none⟩ passIn).2 =
      some .errEmptyUsernameOrPassword ∧
    (promptForAuthTypeAndUser action ⟨[], none⟩ passIn).2.2 = none ∧
    authenticateWithRetryStep action ⟨[], none⟩ passIn = .panickedOnNilCreds ∧
    authenticateWithRetryStep action ⟨aliceName, none⟩ ⟨[], none⟩ =
      .panickedOnNilCreds := by
  refine ⟨rfl, rfl, rfl, ?_⟩
  cases action <;> rfl

/-! ### C10 — broadcast on an empty session map -/

/-- C10 counterexample: the claim "with an empty active-session map the
returned response is `MsgFailedForAll`" is false at the concrete empty hub:
`totalToSendTo = -1`, so `errs := make(chan error, totalToSendTo)` panics
(negative channel buffer size) before any delivery or counting, and the call
returns no response at all — in particular not `MsgFailedForAll`. -/
theorem broadcast_empty_session_map_panics :
    BroadcastMessageWithTimeout ⟨[], []⟩ aliceName (fun _ => true) = none ∧
    BroadcastMessageWithTimeout ⟨[], []⟩ aliceName (fun _ => true) ≠
      some ResponseMsgFailedForAll := by decide

/-- C10 (amended): when the active-session map is empty, `totalToSendTo` is
the Go int `0 - 1 = -1`, so the `totalToSendTo == 0` early return does not
fire; the call then panics at `make(chan error, -1)` and returns no response
— in particular it does not return `Ok`; the early return fires exactly when
the session count is 1. -/
theorem broadcast_empty_session_map_behavior
    (db : List (Username × Password)) (sender : Username)
    (delivered : Handler → Bool) :
    BroadcastMessageWithTimeout ⟨[], db⟩ sender delivered = none ∧
    BroadcastMessageWithTimeout ⟨[], db⟩ sender delivered ≠ some ResponseOk ∧
    ∀ hub : Hub, ((hub.activeUsers.length : Int) - 1 = 0 ↔
      hub.activeUsers.length = 1) := by
  have h : BroadcastMessageWithTimeout ⟨[], db⟩ sender delivered = none := by
    simp [BroadcastMessageWithTimeout]
  refine ⟨h, ?_, ?_⟩
  · rw [h]; simp
  · intro hub; omega

/-! ### C3 — the test and the insertion are not atomic -/

/-- C3: the claim "the test and the insertion behave atomically, so two
concurrent successful authentications for the same name are impossible" fails
on the code: both write locks are released when `testAuth` returns and only
reacquired inside `logClientIn`, so two concurrent `TryToAuthenticate` calls
for the same registered, offline name can both pass `testAuth` before either
inserts. In the interleaving semantics `AuthStep` (one step per locked
section of the source), the state where both calls have finished with
`ResponseOk` and a handler is reachable from two concurrent
`Login(alice, pw)` calls on a hub where alice is registered and offline. -/
theorem two_concurrent_logins_both_ok :
    ∃ s : ConcState,
      AuthReachable
        ⟨hubAliceRegistered, ⟨⟨.login, aliceCreds⟩, .start⟩,
          ⟨⟨.login, aliceCreds⟩, .start⟩⟩ s ∧
      s.t₁.phase = .finished ResponseOk (some aliceHandler) ∧
      s.t₂.phase = .finished ResponseOk (some aliceHandler) := by
  refine ⟨⟨hubAliceActive,
      ⟨⟨.login, aliceCreds⟩, .finished ResponseOk (some aliceHandler)⟩,
      ⟨⟨.login, aliceCreds⟩, .finished ResponseOk (some aliceHandler)⟩⟩,
    ?_, rfl, rfl⟩
  refine Relation.ReflTransGen.head (AuthStep.test₁ _ rfl) ?_
  refine Relation.ReflTransGen.head (AuthStep.test₂ _ rfl) ?_
  refine Relation.ReflTransGen.head (AuthStep.insertOk₁ _ ?_) ?_
  · decide
  refine Relation.ReflTransGen.head (AuthStep.insertOk₂ _ ?_) ?_
  · decide
  exact Relation.ReflTransGen.refl

/-! ### Codec lemmas -/

theorem splitOnChar_ne_nil (sep : Char) (s : GoStr) : splitOnChar sep s ≠ [] := by
  induction s with
  | nil => simp [splitOnChar]
  | cons c rest ih =>
    simp only [splitOnChar]
    by_cases h : c = sep
    · simp [h]
    · simp only [if_neg h]
      cases hp : splitOnChar sep rest with
      | nil => simp
      | cons p ps => simp

theorem splitOnChar_append (sep : Char) (id rest : GoStr) (h : sep ∉ id) :
    splitOnChar sep (id ++ sep :: rest) = id :: splitOnChar sep rest := by
  induction id with
  | nil => simp [splitOnChar]
  | cons c id₁ ih =>
    have hc : c ≠ sep := fun hcs => h (hcs ▸ List.mem_cons_self c id₁)
    have h₁ : sep ∉ id₁ := fun hm => h (List.mem_cons_of_mem c hm)
    simp [splitOnChar, ih h₁, if_neg hc]

theorem drop_id_sep (sep : Char) (id rest : GoStr) :
    (id ++ sep :: rest).drop (id.length + 1) = rest := by
  have h : id ++ sep :: rest = (id ++ [sep]) ++ rest := by simp
  have hl : (id ++ [sep]).length = id.length + 1 := by simp
  rw [h, ← hl, List.drop_left]

theorem ParseServerResponse_frame (id payload : GoStr) (h : idSepChar ∉ id) :
    ParseServerResponse (responseFrameLine id payload) = some ⟨payload, id⟩ := by
  have hline : responseFrameLine id payload = 'r' :: (id ++ idSepChar :: payload) := by
    simp [responseFrameLine, serverResponseMark, idSeparator]
  rw [hline]
  obtain ⟨q, qs, hq⟩ : ∃ q qs, splitOnChar idSepChar payload = q :: qs := by
    cases hp : splitOnChar idSepChar payload with
    | nil => exact absurd hp (splitOnChar_ne_nil idSepChar payload)
    | cons q qs => exact ⟨q, qs, rfl⟩
  simp only [ParseServerResponse, goStartsWith, serverResponseMark, idSeparator,
    List.isPrefixOf, List.length_cons, List.length_nil, List.drop_succ_cons,
    List.drop_zero, splitOnChar_append idSepChar id payload h, hq,
    drop_id_sep idSepChar id payload]
  simp

theorem parseInputMsg_frame (id msg : GoStr) (h : idSepChar ∉ id) :
    parseInputMsg (taggedMsgLine id msg) = some (id, msg) := by
  have hline : taggedMsgLine id msg = 'm' :: (id ++ idSepChar :: msg) := by
    simp [taggedMsgLine, msgMark, idSeparator]
  rw [hline]
  obtain ⟨q, qs, hq⟩ : ∃ q qs, splitOnChar idSepChar msg = q :: qs := by
    cases hp : splitOnChar idSepChar msg with
    | nil => exact absurd hp (splitOnChar_ne_nil idSepChar msg)
    | cons q qs => exact ⟨q, qs, rfl⟩
  simp only [parseInputMsg, goStartsWith, msgMark, idSeparator,
    List.isPrefixOf, List.length_cons, List.length_nil, List.drop_succ_cons,
    List.drop_zero, splitOnChar_append idSepChar id msg h, hq,
    drop_id_sep idSepChar id msg]
  simp

/-! ### C7 — frame round trip -/

/-- C7: for every well-formed frame — a response frame `r<id>;<payload>` or a
tagged message `m<id>;<text>` whose id contains neither the separator nor a
newline — serializing the parse result reproduces the frame exactly,
including payloads containing the separator and the empty authentication id. -/
theorem frame_roundtrip (id payload text : GoStr) (hsep : idSepChar ∉ id)
    (_hnl : '\n' ∉ id) :
    (ParseServerResponse (responseFrameLine id payload)).map
        (fun sr => responseFrameLine sr.id sr.response) =
      some (responseFrameLine id payload) ∧
    (parseInputMsg (taggedMsgLine id text)).map
        (fun p => taggedMsgLine p.1 p.2) =
      some (taggedMsgLine id text) := by
  rw [ParseServerResponse_frame id payload hsep, parseInputMsg_frame id text hsep]
  simp

/-- C7 witness: the empty authentication id with payload `Ok`, and id "7"
with a text containing the separator, evaluated concretely. -/
theorem frame_roundtrip_witness :
    idSepChar ∉ ([] : GoStr) ∧
    (ParseServerResponse (responseFrameLine [] ResponseOk)).map
        (fun sr => responseFrameLine sr.id sr.response) =
      some (responseFrameLine [] ResponseOk) ∧
    (parseInputMsg (taggedMsgLine ['7'] "a;b".toList)).map
        (fun p => taggedMsgLine p.1 p.2) =
      some (taggedMsgLine ['7'] "a;b".toList) :=
  ⟨by decide,
    (frame_roundtrip [] ResponseOk ['x'] (by decide) (by decide)).1,
    (frame_roundtrip ['7'] ResponseOk "a;b".toList (by decide) (by decide)).2⟩

/-! ### C6 — the /quit flow -/

/-- C6: the claim "the server first writes `r<id>;Ok`, then writes the
command frame `/quit` on the same stream" fails on the code. When a
logged-in client (registered in the session map as itself, as `logClientIn`
always arranges) sends `m<id>;/quit`, the server does write `r<id>;Ok` first
and does remove the sender's name from the session set — but inside
`runUserCommand`, `Logout` closes the handler's connection
(`ClosePrintErr` → `Close` → `conn.Close()`) before `forwardCmdToUser`
writes, so the `/quit` write deterministically fails and the frame never
reaches the stream: the dispatch ends in a returned write error with
`r<id>;Ok` as the only bytes written. -/
theorem quit_removes_session_but_cmd_write_fails (hub : Hub) (self : Handler)
    (id : MsgID) (delivered : Handler → Bool) (hid : idSepChar ∉ id)
    (hself : mapLookup self.creds.name hub.activeUsers = some self) :
    dispatchUserInput hub self (taggedMsgLine id (cmdMark ++ LogoutCmdStr))
        delivered =
      .writeErr [responseLineOut id ResponseOk]
        { hub with activeUsers := mapErase self.creds.name hub.activeUsers } ∧
    mapLookup self.creds.name (mapErase self.creds.name hub.activeUsers) =
      none := by
  have hparse := parseInputMsg_frame id (cmdMark ++ LogoutCmdStr) hid
  have hcmd : isCommand (cmdMark ++ LogoutCmdStr) = true := by decide
  have hto : ToCmd (cmdMark ++ LogoutCmdStr) = LogoutCmdStr := by decide
  refine ⟨?_, mapLookup_mapErase_self self.creds.name hub.activeUsers⟩
  simp only [dispatchUserInput, hparse, hcmd, hto, if_true, runUserCommand,
    if_pos rfl, Logout, hself, closeHandlerRef, if_pos (rfl : self = self)]

/-- C6 witness: alice, logged in, sends `m3;/quit`; the response frame is the
only write, the `/quit` write fails, and alice leaves the session set,
evaluated concretely. -/
theorem quit_removes_session_but_cmd_write_fails_witness :
    idSepChar ∉ (['3'] : GoStr) ∧
    dispatchUserInput hubAliceActive aliceHandler
        (taggedMsgLine ['3'] (cmdMark ++ LogoutCmdStr)) (fun _ => true) =
      .writeErr [responseLineOut ['3'] ResponseOk] hubAliceRegistered :=
  ⟨by decide,
    (quit_removes_session_but_cmd_write_fails hubAliceActive aliceHandler
      ['3'] (fun _ => true) (by decide) (by decide)).1⟩

/-! ### C2 — broadcast outcome aggregation -/

/-- In a well-formed session map that contains the sender, filtering the
sender out removes exactly one entry. -/
theorem recipients_length (sender : Username) :
    ∀ l : List (Username × Handler),
      (l.map Prod.fst).Nodup →
      (∀ p ∈ l, p.2.creds.name = p.1) →
      (∃ h, mapLookup sender l = some h) →
      (l.filter (fun p => p.2.creds.name ≠ sender)).length + 1 = l.length := by
  intro l
  induction l with
  | nil => rintro _ _ ⟨h, hh⟩; simp [mapLookup] at hh
  | cons p rest ih =>
    obtain ⟨k, hd⟩ := p
    rintro hnodup hnames ⟨h, hh⟩
    have hhd : hd.creds.name = k := hnames (k, hd) (List.mem_cons_self _ _)
    rw [List.map_cons] at hnodup
    have hnotin : k ∉ rest.map Prod.fst := (List.nodup_cons.mp hnodup).1
    have hnodup₁ : (rest.map Prod.fst).Nodup := (List.nodup_cons.mp hnodup).2
    have hrests : ∀ q ∈ rest, q.2.creds.name = q.1 := fun q hq =>
      hnames q (List.mem_cons_of_mem _ hq)
    by_cases hk : k = sender
    · subst hk
      have hfrest : rest.filter (fun p => p.2.creds.name ≠ k) = rest := by
        refine List.filter_eq_self.mpr ?_
        rintro ⟨a, b⟩ hq
        have hab : b.creds.name = a := hrests (a, b) hq
        have h₁ : a ≠ k := fun hq1 =>
          hnotin (hq1 ▸ List.mem_map_of_mem Prod.fst hq)
        show decide (b.creds.name ≠ k) = true
        rw [hab]
        exact decide_eq_true h₁
      have hpred : decide (hd.creds.name ≠ k) = false := by
        rw [hhd]; simp
      simp only [List.filter_cons, hpred, hfrest, List.length_cons]
      simp
    · have hlook : mapLookup sender rest = some h := by
        simpa [mapLookup, hk] using hh
      have hrec := ih hnodup₁ hrests ⟨h, hlook⟩
      have hkeep : hd.creds.name ≠ sender := by rw [hhd]; exact hk
      have hpred : decide (hd.creds.name ≠ sender) = true := decide_eq_true hkeep
      simp only [List.filter_cons, hpred, if_true, List.length_cons]
      omega

/-- C2: outcome of `BroadcastMessageWithTimeout` when the sender is one of
the sessions: sender the only session → `Ok`; every snapshot recipient
delivered within the shared deadline → `Ok`; some but not all delivered →
`MsgFailedForSome`; at least one recipient and none delivered →
`MsgFailedForAll`. -/
theorem broadcast_outcomes (hub : Hub) (sender : Username)
    (delivered : Handler → Bool) (hwf : HubWF hub)
    (hon : ∃ h, mapLookup sender hub.activeUsers = some h) :
    (hub.activeUsers.length = 1 →
      BroadcastMessageWithTimeout hub sender delivered = some ResponseOk) ∧
    ((∀ p ∈ hub.activeUsers.filter (fun p => p.2.creds.name ≠ sender),
        delivered p.2 = true) →
      BroadcastMessageWithTimeout hub sender delivered = some ResponseOk) ∧
    (((∃ p ∈ hub.activeUsers.filter (fun p => p.2.creds.name ≠ sender),
          delivered p.2 = true) ∧
      (∃ p ∈ hub.activeUsers.filter (fun p => p.2.creds.name ≠ sender),
          delivered p.2 = false)) →
      BroadcastMessageWithTimeout hub sender delivered =
        some ResponseMsgFailedForSome) ∧
    ((hub.activeUsers.filter (fun p => p.2.creds.name ≠ sender) ≠ [] ∧
      ∀ p ∈ hub.activeUsers.filter (fun p => p.2.creds.name ≠ sender),
        delivered p.2 = false) →
      BroadcastMessageWithTimeout hub sender delivered =
        some ResponseMsgFailedForAll) := by
  obtain ⟨hnodup, hnames⟩ := hwf
  have hlen := recipients_length sender hub.activeUsers hnodup hnames hon
  set recips := hub.activeUsers.filter (fun p => p.2.creds.name ≠ sender)
    with hrecips
  have htot : (hub.activeUsers.length : Int) - 1 = (recips.length : Int) := by
    omega
  have hkey : BroadcastMessageWithTimeout hub sender delivered =
      (if (recips.length : Int) = 0 then some ResponseOk
       else if (recips.length : Int) < 0 then none
       else if ((recips.filter (fun p => delivered p.2)).length : Int) = 0 then
         some ResponseMsgFailedForAll
       else if ((recips.filter (fun p => delivered p.2)).length : Int) <
           (recips.length : Int) then some ResponseMsgFailedForSome
       else some ResponseOk) := by
    simp only [BroadcastMessageWithTimeout, htot, ← hrecips]
  have hfle : (recips.filter (fun p => delivered p.2)).length ≤ recips.length :=
    List.length_filter_le _ _
  refine ⟨?_, ?_, ?_, ?_⟩
  · intro h1
    have hm : recips.length = 0 := by omega
    rw [hkey, if_pos (by omega)]
  · intro hall
    by_cases hm : recips.length = 0
    · rw [hkey, if_pos (by omega)]
    · have hfa : recips.filter (fun p => delivered p.2) = recips :=
        List.filter_eq_self.mpr (fun p hp => by simp [hall p hp])
      rw [hkey, if_neg (by omega), if_neg (by omega), hfa, if_neg (by omega),
        if_neg (by omega)]
  · rintro ⟨⟨pt, hpt, hptd⟩, ⟨pf, hpf, hpfd⟩⟩
    have hpos : 0 < (recips.filter (fun p => delivered p.2)).length := by
      have : pt ∈ recips.filter (fun p => delivered p.2) :=
        List.mem_filter.mpr ⟨hpt, by simp [hptd]⟩
      exact List.length_pos.mpr (List.ne_nil_of_mem this)
    have hlt : (recips.filter (fun p => delivered p.2)).length < recips.length :=
      List.length_filter_lt_length_iff_exists.mpr ⟨pf, hpf, by simp [hpfd]⟩
    rw [hkey, if_neg (by omega), if_neg (by omega), if_neg (by omega),
      if_pos (by omega)]
  · rintro ⟨hne, hall⟩
    have hm : 0 < recips.length := List.length_pos.mpr hne
    have hf0 : recips.filter (fun p => delivered p.2) = [] := by
      refine List.filter_eq_nil_iff.mpr ?_
      intro p hp
      simp [hall p hp]
    rw [hkey, if_neg (by omega), if_neg (by omega), hf0, if_pos (by simp)]

/-- C2 witness: alice and bob logged in, alice broadcasts, bob's delivery
completes within the deadline — the response is `Ok`. -/
theorem broadcast_outcomes_witness :
    HubWF hubAliceBobActive ∧
    BroadcastMessageWithTimeout hubAliceBobActive aliceName (fun _ => true) =
      some ResponseOk := by
  have hwf : HubWF hubAliceBobActive := ⟨by decide, by decide⟩
  exact ⟨hwf,
    (broadcast_outcomes hubAliceBobActive aliceName (fun _ => true) hwf
      ⟨aliceHandler, by decide⟩).2.1 (by decide)⟩

/-! ### C9 — uniqueness of getUniqueID -/

theorem digitChar_toNat_of_lt : ∀ d < 10, (Nat.digitChar d).toNat = 48 + d := by
  decide

theorem decValue_append_digit (l : GoStr) (c : Char) :
    decValue (l ++ [c]) = decValue l * 10 + (c.toNat - 48) := by
  simp [decValue, List.foldl_append]

theorem decValue_natDecAux :
    ∀ fuel n : Nat, n ≤ fuel → decValue (natDecAux fuel n) = n := by
  intro fuel
  induction fuel with
  | zero =>
    intro n hn
    have : n = 0 := Nat.le_zero.mp hn
    subst this
    rfl
  | succ fuel ih =>
    intro n hn
    match n with
    | 0 => rfl
    | m + 1 =>
      have hdiv : (m + 1) / 10 ≤ fuel := by
        have := Nat.div_lt_self (Nat.succ_pos m) (by norm_num : 1 < 10)
        omega
      have hmod : (m + 1) % 10 < 10 := Nat.mod_lt _ (by norm_num)
      have hstep : natDecAux (fuel + 1) (m + 1) =
          natDecAux fuel ((m + 1) / 10) ++ [Nat.digitChar ((m + 1) % 10)] := rfl
      rw [hstep, decValue_append_digit, ih _ hdiv,
        digitChar_toNat_of_lt _ hmod]
      have := Nat.div_add_mod (m + 1) 10
      omega

theorem decValue_natDecChars (n : Nat) : decValue (natDecChars n) = n := by
  by_cases h : n = 0
  · subst h; rfl
  · have := decValue_natDecAux n n (le_refl n)
    simpa [natDecChars, h] using this

theorem natDecChars_ne_nil (n : Nat) : natDecChars n ≠ [] := by
  unfold natDecChars
  by_cases hm : n = 0
  · simp [hm]
  · obtain ⟨k, rfl⟩ := Nat.exists_eq_succ_of_ne_zero hm
    simp [natDecAux]

theorem int64wrap_of_small (v : Int) (h0 : 0 ≤ v) (h : v < 2 ^ 63) :
    int64wrap v = v := by
  unfold int64wrap
  omega

theorem globalIDAfter_eq (n : Nat) : globalIDAfter n = int64wrap n := by
  induction n with
  | zero => decide
  | succ n ih =>
    show addInt64 (globalIDAfter n) 1 = int64wrap (n + 1 : Nat)
    rw [ih]
    unfold addInt64 int64wrap
    push_cast
    omega

theorem getUniqueIDAt_small (m : Nat) (h63 : m < 2 ^ 63) :
    getUniqueIDAt m = natDecChars m := by
  unfold getUniqueIDAt
  rw [globalIDAfter_eq,
    int64wrap_of_small m (by positivity) (by exact_mod_cast h63)]
  have hnn : ¬((m : Int) < 0) := by omega
  simp [goFormatInt, hnn]

/-- C9 counterexample: with the faithful `int64` wrapping semantics of
`atomic.AddInt64`, call 1 and call `2^64 + 1` of `getUniqueID` both return
the id "1": "for any two distinct calls the returned id strings differ" is
false as an unconditional statement. -/
theorem getUniqueID_collision_after_wrap :
    (1 : Nat) ≠ 2 ^ 64 + 1 ∧ getUniqueIDAt 1 = getUniqueIDAt (2 ^ 64 + 1) := by
  constructor
  · decide
  · show goFormatInt (globalIDAfter 1) = goFormatInt (globalIDAfter (2 ^ 64 + 1))
    rw [globalIDAfter_eq, globalIDAfter_eq]
    have h1 : int64wrap ((1 : Nat) : Int) = 1 := by decide
    have h2 : int64wrap (((2 ^ 64 + 1 : Nat)) : Int) = 1 := by
      unfold int64wrap
      push_cast
    rw [h1, h2]

/-- C9 (amended): as long as the `int64` counter has not wrapped — any two
distinct calls among the first `2^63 - 1` — the returned ids are distinct
decimal renderings of the increasing counter, and no returned id is ever the
empty authentication id. -/
theorem getUniqueID_unique_before_wrap :
    (∀ i j : Nat, 1 ≤ i → 1 ≤ j → i < 2 ^ 63 → j < 2 ^ 63 → i ≠ j →
      getUniqueIDAt i ≠ getUniqueIDAt j) ∧
    (∀ n : Nat, 1 ≤ n → getUniqueIDAt n ≠ []) := by
  constructor
  · intro i j _ _ hi63 hj63 hne heq
    rw [getUniqueIDAt_small i hi63, getUniqueIDAt_small j hj63] at heq
    have := congrArg decValue heq
    rw [decValue_natDecChars, decValue_natDecChars] at this
    exact hne this
  · intro n _
    unfold getUniqueIDAt goFormatInt
    by_cases hv : globalIDAfter n < 0
    · simp [hv]
    · simp only [hv, if_false]
      exact natDecChars_ne_nil _

/-- C9 witness: calls 1 and 2, evaluated concretely. -/
theorem getUniqueID_unique_before_wrap_witness :
    (1 : Nat) ≠ 2 ∧ getUniqueIDAt 1 ≠ getUniqueIDAt 2 ∧ getUniqueIDAt 1 ≠ [] :=
  ⟨by decide,
    getUniqueID_unique_before_wrap.1 1 2 (le_refl 1) (by norm_num)
      (by norm_num) (by norm_num) (by decide),
    getUniqueID_unique_before_wrap.2 1 (le_refl 1)⟩

end ChatServer
